import Mathlib

/-!
Shallow embedding of the mini-kart promotional-code validator core
(`internal/coupon`: `set.go`, the file loader, `s3_loader.go`,
`validator.go`) together with proofs of the spec claims about it.

Concurrency is embedded deterministically: the nondeterministic choices a
real execution makes (arrival order of per-set lookup results, the loop
iteration at which `ctx.Done()` wins a `select`) are explicit parameters,
so every schedule of the Go code corresponds to some parameter value.
-/

/-- Code points the Go standard library `unicode.IsSpace` accepts:
ASCII whitespace, U+0085, U+00A0 and the Unicode `White_Space` runes.
Used to model `strings.TrimSpace`. -/
def goSpaceCodes : List Nat :=
  [9, 10, 11, 12, 13, 32, 0x85, 0xA0, 0x1680,
   0x2000, 0x2001, 0x2002, 0x2003, 0x2004, 0x2005, 0x2006, 0x2007,
   0x2008, 0x2009, 0x200A, 0x2028, 0x2029, 0x202F, 0x205F, 0x3000]

/-- Model of Go `unicode.IsSpace`. -/
def goIsSpace (c : Char) : Bool :=
  goSpaceCodes.contains c.toNat

/-- Model of Go `strings.TrimSpace`: drop leading and trailing whitespace
characters. -/
def trimSpace (s : String) : String :=
  ⟨((s.data.dropWhile goIsSpace).reverse.dropWhile goIsSpace).reverse⟩

/-- Model of Go `len(s)` on a string: its UTF-8 byte length. -/
def goLen (s : String) : Nat :=
  s.utf8ByteSize

/-- Embedding of `mapCouponSet` (`set.go`): a Go `map[string]struct{}`
is a finite set of strings (duplicates collapsed). -/
structure MapCouponSet where
  coupons : Finset String
deriving DecidableEq

/-- Embedding of `mapCouponSet.Contains`: map lookup. -/
def MapCouponSet.Contains (s : MapCouponSet) (code : String) : Bool :=
  decide (code ∈ s.coupons)

/-- Embedding of `mapCouponSet.Size`: `len` of the map. -/
def MapCouponSet.Size (s : MapCouponSet) : Nat :=
  s.coupons.card

/-- Embedding of `mapCouponSet.Add`: map insertion. -/
def MapCouponSet.Add (s : MapCouponSet) (code : String) : MapCouponSet :=
  ⟨insert code s.coupons⟩

/-- The error conditions of the two loaders (`fileLoader.Load`,
`s3Loader.Load`): open/GetObject failed, gzip reader creation failed,
context cancelled mid-scan, scanner error after the loop. -/
inductive LoadErr where
  | openFailed
  | gzipFailed
  | cancelled
  | readFailed
deriving DecidableEq

/-- Whether `ctx.Done()` is ready when the loader begins scanning its
i-th line: the context was cancelled at scan index `k ≤ i`
(`none` means the context is never cancelled). -/
def ctxFired (cancelAt : Option Nat) (i : Nat) : Bool :=
  match cancelAt with
  | none => false
  | some k => k ≤ i

/-- Embedding of the scan loop shared by `fileLoader.Load` and
`s3Loader.Load`: for each scanned line, when `lineCount % 1_000_000 == 0`
poll the context (returning `none`, i.e. `nil, ctx.Err()`, if it fired);
otherwise trim the line and `Add` it when non-empty, incrementing
`lineCount` only for added lines. `i` is the scan index used to interpret
`cancelAt`; `c` is the Go `lineCount`. -/
def loadLines (cancelAt : Option Nat) :
    List String → Nat → Nat → MapCouponSet → Option MapCouponSet
  | [], _, _, acc => some acc
  | l :: rest, i, c, acc =>
    if c % 1000000 == 0 && ctxFired cancelAt i then
      none
    else
      let t := trimSpace l
      if t = "" then
        loadLines cancelAt rest (i + 1) c acc
      else
        loadLines cancelAt rest (i + 1) (c + 1) (acc.Add t)

/-- The observable behaviour of one loader call: whether `os.Open`
(resp. `GetObject`) succeeds, whether `gzip.NewReader` succeeds, the lines
the scanner yields, whether `scanner.Err()` is non-nil after the loop, and
the cancellation schedule. -/
structure LoadIn where
  openOk : Bool
  gzipOk : Bool
  lines : List String
  readErr : Bool
  cancelAt : Option Nat

/-- Embedding of `fileLoader.Load` (and, with `openOk` read as the
`GetObject` outcome, of `s3Loader.Load`, whose body is line-for-line the
same): each failure site returns `(nil, err)`; success returns the built
set and a nil error. -/
def fileLoad (inp : LoadIn) : Option MapCouponSet × Option LoadErr :=
  if !inp.openOk then
    (none, some .openFailed)
  else if !inp.gzipOk then
    (none, some .gzipFailed)
  else
    match loadLines inp.cancelAt inp.lines 0 0 ⟨∅⟩ with
    | none => (none, some .cancelled)
    | some s =>
      if inp.readErr then (none, some .readFailed) else (some s, none)

/-- The set a successful, uncancelled load of the given lines produces. -/
def loadedSet (lines : List String) : MapCouponSet :=
  (loadLines none lines 0 0 ⟨∅⟩).getD ⟨∅⟩

/-- Embedding of `fallbackLoader.Load` (`s3_loader.go`): when S3 is
enabled and an S3 loader is configured, try `s3Load (s3Pre ++ path)`
first and return its set on success; on its failure, or when S3 is
disabled/unconfigured, load `path` (unchanged) with the file loader.
The delegates are embedded as result functions from identifiers. -/
def fallbackLoad (s3Enabled hasS3 : Bool) (s3Pre : String)
    (s3Load fileLoadFn : String → Except LoadErr MapCouponSet)
    (path : String) : Except LoadErr MapCouponSet :=
  if s3Enabled && hasS3 then
    match s3Load (s3Pre ++ path) with
    | .ok set => .ok set
    | .error _ => fileLoadFn path
  else
    fileLoadFn path

/-- Embedding of `ValidatorConfig` (`validator.go`): file paths and the
`MinMatchCount` field (documented as "the minimum number of files a code
must appear in", default 2). -/
structure ValidatorConfig where
  filePaths : List String
  minMatchCount : Nat

/-- Embedding of `DefaultValidatorConfig`. -/
def defaultValidatorConfig : ValidatorConfig :=
  ⟨["data/coupons/couponbase1.gz", "data/coupons/couponbase2.gz",
    "data/coupons/couponbase3.gz"], 2⟩

/-- Embedding of the result-collection phase of `NewValidator`: the load
results are indexed by source, then scanned in configured order; the
first (lowest-index) failure aborts the whole construction, annotated
with the failing path, and otherwise the sets are appended in configured
order. The concurrent loads are embedded by the per-path result function
`loader`. -/
def collectLoads (loader : String → Except LoadErr MapCouponSet) :
    List String → Except (String × LoadErr) (List MapCouponSet)
  | [] => .ok []
  | p :: rest =>
    match loader p with
    | .error e => .error (p, e)
    | .ok set =>
      match collectLoads loader rest with
      | .error e => .error e
      | .ok sets => .ok (set :: sets)

/-- Embedding of `NewValidator`: the validator state it returns is its
`couponSets` list (note the `validator` struct stores no match-count
field — `minMatchCount` is only logged). A `nil` config is replaced by
the default. -/
def newValidator (config : Option ValidatorConfig)
    (loader : String → Except LoadErr MapCouponSet) :
    Except (String × LoadErr) (List MapCouponSet) :=
  collectLoads loader (config.getD defaultValidatorConfig).filePaths

/-- The three values `validator.Validate` can return: `nil`,
`model.ErrInvalidPromoLength`, `model.ErrInvalidPromoCode`. The `model`
package defines no timeout or cancellation error. -/
inductive VResult where
  | ok
  | errInvalidPromoLength
  | errInvalidPromoCode
deriving DecidableEq

/-- Embedding of the receive loop of `validator.countMatches`.
`n` is `len(v.couponSets)`; `arrivals` is the sequence of `found` values
in the order the workers' sends are received; `cancelAt = some k` means
the `ctx.Done()` branch of the `select` is taken when `checked = k`
(covering every schedule in which cancellation is observed), `none` means
it is never taken. `m` and `c` are the running `matches` and `checked`.
Mirrors the source: on a received result, `checked` is incremented,
`matches` is incremented when found and returned as soon as it reaches 2,
and the loop also returns when `matches + remaining < 2`. -/
def countLoop (n : Nat) (cancelAt : Option Nat) :
    List Bool → Nat → Nat → Nat
  | [], m, _ => m
  | found :: rest, m, c =>
    if c < n then
      if cancelAt = some c then
        m
      else if found then
        if 2 ≤ m + 1 then
          m + 1
        else if (m + 1) + (n - (c + 1)) < 2 then
          m + 1
        else
          countLoop n cancelAt rest (m + 1) (c + 1)
      else
        if m + (n - (c + 1)) < 2 then
          m
        else
          countLoop n cancelAt rest m (c + 1)
    else
      m

/-- Embedding of `validator.countMatches` from its initial state. -/
def countMatches (sets : List MapCouponSet) (cancelAt : Option Nat)
    (arrivals : List Bool) : Nat :=
  countLoop sets.length cancelAt arrivals 0 0

/-- Embedding of `validator.Validate`: reject lengths outside `[8, 10]`
with `ErrInvalidPromoLength` before any lookup, then run `countMatches`
and return `ErrInvalidPromoCode` when it reports fewer than 2 matches,
`nil` otherwise. In a real run `arrivals` is (a permutation of a subset
of) the per-set `Contains` results; theorems add that as a hypothesis
where they need it. -/
def validate (sets : List MapCouponSet) (cancelAt : Option Nat)
    (arrivals : List Bool) (promoCode : String) : VResult :=
  if goLen promoCode < 8 ∨ 10 < goLen promoCode then
    .errInvalidPromoLength
  else if countMatches sets cancelAt arrivals < 2 then
    .errInvalidPromoCode
  else
    .ok

/-- Embedding of `validator.Close`: sets `couponSets` to `nil` and
returns a `nil` error (`none`). -/
def closeValidator (v : List MapCouponSet) :
    List MapCouponSet × Option LoadErr :=
  ([], none)

/-- The number of `true` entries in a list of lookup results. -/
def countTrue : List Bool → Nat
  | [] => 0
  | b :: rest => (if b then 1 else 0) + countTrue rest

/-- The number of sets containing a code, counted over the validator's
set list. -/
def matchingSets (sets : List MapCouponSet) (code : String) : Nat :=
  (sets.filter (fun s => s.Contains code)).length

/-- One step of the loader's scan loop on the set being built: trim the
line, skip it when empty, insert it otherwise. -/
def insLine (acc : MapCouponSet) (l : String) : MapCouponSet :=
  if trimSpace l = "" then acc else acc.Add (trimSpace l)

/-- The first configured source (in order) whose load fails, with its
error — the failure `NewValidator` reports, since it scans the
index-ordered results and aborts at the first error. -/
def firstFail (loader : String → Except LoadErr MapCouponSet) :
    List String → Option (String × LoadErr)
  | [] => none
  | p :: rest =>
    match loader p with
    | .error e => some (p, e)
    | .ok _ => firstFail loader rest

/-- Counting true results is invariant under permutation of the list. -/
theorem countTrue_perm {l1 l2 : List Bool} (h : l1.Perm l2) :
    countTrue l1 = countTrue l2 := by
  induction h with
  | nil => rfl
  | cons x _ ih => simp [countTrue, ih]
  | swap x y l => simp [countTrue]; omega
  | trans _ _ ih1 ih2 => omega

/-- Counting true results of a predicate mapped over a list counts the
elements satisfying the predicate. -/
theorem countTrue_map {α : Type} (p : α → Bool) (l : List α) :
    countTrue (l.map p) = (l.filter p).length := by
  induction l with
  | nil => rfl
  | cons a rest ih =>
    cases ha : p a <;> simp [countTrue, List.filter_cons, ha, ih] <;> omega

/-- The count of true results is at most the number of results. -/
theorem countTrue_le_length (l : List Bool) : countTrue l ≤ l.length := by
  induction l with
  | nil => simp [countTrue]
  | cons b rest ih => cases b <;> simp [countTrue] <;> omega

/-- The receive loop never reports more matches than the initial count
plus the true results available, whatever the cancellation schedule. -/
theorem countLoop_le (n : Nat) (ca : Option Nat) (l : List Bool) :
    ∀ (m c : Nat), countLoop n ca l m c ≤ m + countTrue l := by
  induction l with
  | nil => intro m c; simp [countLoop, countTrue]
  | cons b rest ih =>
    intro m c
    have h1 := ih m (c + 1)
    have h2 := ih (m + 1) (c + 1)
    cases b <;> simp [countLoop, countTrue] <;> (repeat' split) <;> omega

/-- With no cancellation and a full complement of results, the receive
loop reaches 2 exactly when the results hold at least 2 matches: the
early-success and impossibility exits agree with counting everything. -/
theorem countLoop_none_iff (n : Nat) (l : List Bool) :
    ∀ (m c : Nat), c + l.length = n → m < 2 →
      (2 ≤ countLoop n none l m c ↔ 2 ≤ m + countTrue l) := by
  induction l with
  | nil =>
    intro m c _ _
    simp [countLoop, countTrue]
  | cons b rest ih =>
    intro m c hlen hm
    simp only [List.length_cons] at hlen
    have hc : c < n := by omega
    have hrest : (c + 1) + rest.length = n := by omega
    have hct := countTrue_le_length rest
    have hrl : n - (c + 1) = rest.length := by omega
    have hi1 := ih m (c + 1) hrest hm
    have hi2 : m + 1 < 2 →
        (2 ≤ countLoop n none rest (m + 1) (c + 1) ↔
          2 ≤ (m + 1) + countTrue rest) :=
      fun h => ih (m + 1) (c + 1) hrest h
    cases b <;> simp [countLoop, countTrue, hc] <;> (repeat' split) <;>
      first
      | omega
      | (have h3 := hi2 (by omega); omega)

/-- When cancellation is observed at checked count `k`, the receive loop
consumes at most the first `k - c` pending results, so it returns at most
the matches already held plus the true results among those: the partial
match count at the moment cancellation is observed. -/
theorem countLoop_cancel_le (n k : Nat) (l : List Bool) :
    ∀ (m c : Nat), c ≤ k →
      countLoop n (some k) l m c ≤ m + countTrue (List.take (k - c) l) := by
  induction l with
  | nil => intro m c _; simp [countLoop, countTrue]
  | cons b rest ih =>
    intro m c hck
    by_cases hkc : k = c
    · subst hkc
      simp [countLoop, countTrue, Nat.sub_self, ite_self]
    · have hck' : c + 1 ≤ k := by omega
      have hkc' : (some k : Option Nat) ≠ some c := by
        simp only [ne_eq, Option.some.injEq]
        omega
      have htake : k - c = (k - (c + 1)) + 1 := by omega
      have h1 := ih m (c + 1) hck'
      have h2 := ih (m + 1) (c + 1) hck'
      rw [htake]
      cases b <;> simp [countLoop, List.take_succ_cons, countTrue, hkc'] <;>
        (repeat' split) <;> omega

/-- An uncancelled scan never aborts: it folds the lines into the set. -/
theorem loadLines_none_eq (lines : List String) :
    ∀ (i c : Nat) (acc : MapCouponSet),
      loadLines none lines i c acc = some (lines.foldl insLine acc) := by
  induction lines with
  | nil => intro i c acc; rfl
  | cons l rest ih =>
    intro i c acc
    simp only [loadLines, ctxFired, Bool.and_false, Bool.false_eq_true,
      if_false, List.foldl_cons]
    by_cases ht : trimSpace l = "" <;> simp [ht, insLine, ih]

/-- Membership in the folded set: the initial contents plus every line
whose trimmed form is the sought string and non-empty. -/
theorem foldl_insLine_mem (lines : List String) :
    ∀ (acc : MapCouponSet) (x : String),
      x ∈ (List.foldl insLine acc lines).coupons ↔
        x ∈ acc.coupons ∨ ∃ l ∈ lines, trimSpace l = x ∧ x ≠ "" := by
  induction lines with
  | nil => intro acc x; simp
  | cons l rest ih =>
    intro acc x
    simp only [List.foldl_cons, ih, insLine, MapCouponSet.Add]
    by_cases ht : trimSpace l = ""
    · simp only [ht, if_pos rfl, List.mem_cons]
      constructor
      · intro h
        rcases h with h | ⟨w, hw, hwx⟩
        · exact Or.inl h
        · exact Or.inr ⟨w, Or.inr hw, hwx⟩
      · intro h
        rcases h with h | ⟨w, hw, hwt, hwx⟩
        · exact Or.inl h
        · rcases hw with rfl | hw
          · exact absurd (ht ▸ hwt) (by exact fun hc => hwx hc.symm)
          · exact Or.inr ⟨w, hw, hwt, hwx⟩
    · simp only [if_neg ht, Finset.mem_insert, List.mem_cons]
      constructor
      · intro h
        rcases h with (rfl | h) | ⟨w, hw, hwx⟩
        · exact Or.inr ⟨l, Or.inl rfl, rfl, ht⟩
        · exact Or.inl h
        · exact Or.inr ⟨w, Or.inr hw, hwx⟩
      · intro h
        rcases h with h | ⟨w, hw, hwt, hwx⟩
        · exact Or.inl (Or.inr h)
        · rcases hw with rfl | hw
          · exact Or.inl (Or.inl hwt.symm)
          · exact Or.inr ⟨w, hw, hwt, hwx⟩

/-- The result-collection scan of `NewValidator`: the first failing
source (in configured order) determines the returned error, and with no
failing source the sets come back index-aligned with the paths. -/
theorem collectLoads_spec (loader : String → Except LoadErr MapCouponSet) :
    ∀ (paths : List String),
      (∀ (q : String) (e : LoadErr),
        firstFail loader paths = some (q, e) →
          q ∈ paths ∧ loader q = .error e ∧
          collectLoads loader paths = .error (q, e))
      ∧ (firstFail loader paths = none →
        collectLoads loader paths =
          .ok (paths.map fun p => (loader p).toOption.getD ⟨∅⟩)) := by
  intro paths
  induction paths with
  | nil =>
    constructor
    · intro q e h
      simp [firstFail] at h
    · intro _
      rfl
  | cons p rest ih =>
    cases heq : loader p with
    | error e' =>
      constructor
      · intro q e h
        simp only [firstFail, heq, Option.some.injEq, Prod.mk.injEq] at h
        obtain ⟨hq, he⟩ := h
        subst hq; subst he
        exact ⟨List.mem_cons_self _ _, heq, by simp [collectLoads, heq]⟩
      · intro h
        simp [firstFail, heq] at h
    | ok s =>
      constructor
      · intro q e h
        simp only [firstFail, heq] at h
        obtain ⟨hmem, hload, hcoll⟩ := ih.1 q e h
        exact ⟨List.mem_cons_of_mem _ hmem, hload,
          by simp [collectLoads, heq, hcoll]⟩
      · intro h
        simp only [firstFail, heq] at h
        have hok := ih.2 h
        simp [collectLoads, heq, hok, Except.toOption]

/-- C1 (counterexample to the claim as stated): with `MinMatchCount`
configured to 3 and a code appearing in exactly 2 of the 3 loaded sets,
`Validate` returns `nil` (Valid) even though the code is not a member of
at least the configured quorum of sets: the threshold actually applied is
the hardcoded 2, not `MinMatchCount`. The arrival list is exactly the
per-set `Contains` results. -/
theorem c1_counterexample :
    newValidator (some ⟨["f1", "f2", "f3"], 3⟩)
        (fun p => if p = "f3" then .ok ⟨∅⟩ else .ok ⟨{"AAAABBBB"}⟩) =
      .ok [⟨{"AAAABBBB"}⟩, ⟨{"AAAABBBB"}⟩, ⟨∅⟩]
    ∧ validate [⟨{"AAAABBBB"}⟩, ⟨{"AAAABBBB"}⟩, ⟨∅⟩] none
        [true, true, false] "AAAABBBB" = .ok
    ∧ matchingSets [⟨{"AAAABBBB"}⟩, ⟨{"AAAABBBB"}⟩, ⟨∅⟩] "AAAABBBB" = 2 := by
  refine ⟨by rfl, by decide, by decide⟩

/-- C1 (amended): for every code of valid length and every arrival order
of the per-set lookup results, an uncancelled `Validate` returns `nil`
(Valid) iff the code is an exact member of at least 2 of the loaded sets
— 2 being the threshold hardcoded in `Validate`/`countMatches`, with the
configured `MinMatchCount` not consulted — and `ErrInvalidPromoCode`
otherwise. -/
theorem c1_valid_iff_two_matches (sets : List MapCouponSet)
    (promoCode : String) (arrivals : List Bool)
    (hperm : arrivals.Perm (sets.map fun s => s.Contains promoCode))
    (h8 : 8 ≤ goLen promoCode) (h10 : goLen promoCode ≤ 10) :
    (validate sets none arrivals promoCode = .ok ↔
      2 ≤ matchingSets sets promoCode)
    ∧ (validate sets none arrivals promoCode = .ok ∨
      validate sets none arrivals promoCode = .errInvalidPromoCode) := by
  have hlen : arrivals.length = sets.length := by
    have h := hperm.length_eq
    simpa using h
  have hkey := countLoop_none_iff sets.length arrivals 0 0 (by omega) (by omega)
  have hcnt : countTrue arrivals = matchingSets sets promoCode := by
    rw [countTrue_perm hperm, countTrue_map]
    rfl
  simp only [Nat.zero_add, hcnt] at hkey
  have hnlen : ¬(goLen promoCode < 8 ∨ 10 < goLen promoCode) := by omega
  simp only [validate, countMatches, if_neg hnlen]
  constructor
  · split <;> simp <;> omega
  · split <;> simp

/-- C1 witness: a concrete validator on which the amended claim's
hypotheses hold and the quorum-2 verdict is Valid. -/
theorem c1_witness :
    validate [⟨{"AAAABBBB"}⟩, ⟨{"AAAABBBB"}⟩, ⟨∅⟩] none
        [true, true, false] "AAAABBBB" = .ok :=
  ((c1_valid_iff_two_matches [⟨{"AAAABBBB"}⟩, ⟨{"AAAABBBB"}⟩, ⟨∅⟩]
    "AAAABBBB" [true, true, false] (by decide) (by decide) (by decide)).1).mpr
    (by decide)

/-- C2: a code whose byte length is outside the inclusive window
`[8, 10]` is rejected with `ErrInvalidPromoLength` — and the result is
the same for every set list, arrival order and cancellation schedule,
i.e. no Membership Set lookup influences it — while codes of length 8
through 10 are never rejected for length. -/
theorem c2_length_prefilter (sets : List MapCouponSet)
    (cancelAt : Option Nat) (arrivals : List Bool) (promoCode : String) :
    ((goLen promoCode < 8 ∨ 10 < goLen promoCode) →
      validate sets cancelAt arrivals promoCode = .errInvalidPromoLength)
    ∧ (8 ≤ goLen promoCode → goLen promoCode ≤ 10 →
      validate sets cancelAt arrivals promoCode ≠ .errInvalidPromoLength) := by
  constructor
  · intro h
    simp [validate, h]
  · intro h8 h10
    have hnlen : ¬(goLen promoCode < 8 ∨ 10 < goLen promoCode) := by omega
    simp only [validate, if_neg hnlen]
    split <;> simp

/-- C2 witness: a 7-byte code is rejected for length; an 8-byte and a
10-byte code are not. -/
theorem c2_witness :
    validate [] none [] "ABCDEFG" = .errInvalidPromoLength
    ∧ validate [] none [] "ABCDEFGH" ≠ .errInvalidPromoLength
    ∧ validate [] none [] "ABCDEFGHIJ" ≠ .errInvalidPromoLength :=
  ⟨(c2_length_prefilter [] none [] "ABCDEFG").1 (by decide),
   (c2_length_prefilter [] none [] "ABCDEFGH").2 (by decide) (by decide),
   (c2_length_prefilter [] none [] "ABCDEFGHIJ").2 (by decide) (by decide)⟩

/-- C3 (counterexample to the claim as stated): the code appears in all
three sets, but the context is cancelled before any lookup result is
consumed — the quorum outcome is undetermined — and `Validate` returns
`ErrInvalidPromoCode`, not a distinct Timeout/Cancelled outcome (the
`model` package defines no such error value). -/
theorem c3_counterexample :
    validate [⟨{"AAAABBBB"}⟩, ⟨{"AAAABBBB"}⟩, ⟨{"AAAABBBB"}⟩] (some 0)
        [] "AAAABBBB" = .errInvalidPromoCode := by
  decide

/-- C3 (amended): whenever cancellation is observed by the receive loop
— at any checked count `k`, after any prefix of results — before the
quorum outcome is determined (fewer than 2 matches among the first `k`
consumed results; with 2 or more the loop would have returned Valid
before observing cancellation), `countMatches` returns its partial match
count, still below 2, and `Validate` maps it to `ErrInvalidPromoCode`
for every code of valid length — there is no distinct Timeout/Cancelled
return value. -/
theorem c3_cancel_returns_invalid_code (sets : List MapCouponSet)
    (k : Nat) (arrivals : List Bool) (promoCode : String)
    (h8 : 8 ≤ goLen promoCode) (h10 : goLen promoCode ≤ 10)
    (hpart : countTrue (List.take k arrivals) < 2) :
    countMatches sets (some k) arrivals < 2
    ∧ validate sets (some k) arrivals promoCode =
      .errInvalidPromoCode := by
  have hle := countLoop_cancel_le sets.length k arrivals 0 0 (Nat.zero_le k)
  simp only [Nat.sub_zero, Nat.zero_add] at hle
  have hm : countMatches sets (some k) arrivals < 2 := by
    simp only [countMatches]
    omega
  have hnlen : ¬(goLen promoCode < 8 ∨ 10 < goLen promoCode) := by omega
  exact ⟨hm, by simp [validate, hnlen, hm]⟩

/-- C3 witness: three sets all containing the code, cancellation
observed after 1 of the 3 results (partial match count 1): `Validate`
returns `ErrInvalidPromoCode`. -/
theorem c3_witness :
    countMatches [⟨{"AAAABBBB"}⟩, ⟨{"AAAABBBB"}⟩, ⟨{"AAAABBBB"}⟩]
        (some 1) [true, true, true] < 2
    ∧ validate [⟨{"AAAABBBB"}⟩, ⟨{"AAAABBBB"}⟩, ⟨{"AAAABBBB"}⟩]
        (some 1) [true, true, true] "AAAABBBB" = .errInvalidPromoCode :=
  c3_cancel_returns_invalid_code
    [⟨{"AAAABBBB"}⟩, ⟨{"AAAABBBB"}⟩, ⟨{"AAAABBBB"}⟩] 1 [true, true, true]
    "AAAABBBB" (by decide) (by decide) (by decide)

/-- C4: if any configured source fails to load, `NewValidator` fails as a
whole with an error annotated with the (first) failing source path and
returns no validator; when every source loads, the returned set list is
the configured paths mapped through the loader, hence index-aligned with
the configured order and of the full length N. -/
theorem c4_fail_fast (cfg : ValidatorConfig)
    (loader : String → Except LoadErr MapCouponSet) :
    (∀ (q : String) (e : LoadErr),
      firstFail loader cfg.filePaths = some (q, e) →
        q ∈ cfg.filePaths ∧ loader q = .error e ∧
        newValidator (some cfg) loader = .error (q, e))
    ∧ (firstFail loader cfg.filePaths = none →
      newValidator (some cfg) loader =
        .ok (cfg.filePaths.map fun p => (loader p).toOption.getD ⟨∅⟩))
    ∧ (∀ (sets : List MapCouponSet),
      newValidator (some cfg) loader = .ok sets →
        sets.length = cfg.filePaths.length) := by
  obtain ⟨h1, h2⟩ := collectLoads_spec loader cfg.filePaths
  have hnv : newValidator (some cfg) loader =
      collectLoads loader cfg.filePaths := rfl
  refine ⟨?_, ?_, ?_⟩
  · intro q e h
    obtain ⟨hm, hl, hc⟩ := h1 q e h
    exact ⟨hm, hl, hnv ▸ hc⟩
  · intro h
    rw [hnv, h2 h]
  · intro sets hok
    cases hff : firstFail loader cfg.filePaths with
    | some qe =>
      obtain ⟨q, e⟩ := qe
      obtain ⟨_, _, hc⟩ := h1 q e hff
      rw [hnv, hc] at hok
      cases hok
    | none =>
      rw [hnv, h2 hff] at hok
      cases hok
      simp

/-- C4 witness: with the second of two sources failing to open,
construction returns exactly the annotated error; with the single source
loading, it returns the one-element aligned set list. -/
theorem c4_witness :
    newValidator (some ⟨["a", "b"], 2⟩)
        (fun p => if p = "b" then .error .openFailed else .ok ⟨∅⟩) =
      .error ("b", .openFailed)
    ∧ newValidator (some ⟨["a"], 2⟩) (fun _ => .ok ⟨∅⟩) = .ok [⟨∅⟩] :=
  ⟨((c4_fail_fast ⟨["a", "b"], 2⟩
      (fun p => if p = "b" then .error .openFailed else .ok ⟨∅⟩)).1
      "b" .openFailed rfl).2.2,
   (c4_fail_fast ⟨["a"], 2⟩ (fun _ => .ok ⟨∅⟩)).2.1 rfl⟩

/-- C5: a successful, uncancelled load of a stream returns exactly the
set of trimmed non-empty lines of the stream: each line is whitespace
trimmed, lines empty after trimming are skipped, every remaining line is
stored verbatim, and duplicates are collapsed (the set is a finite set,
so repeated insertion of the same trimmed line adds one member). -/
theorem c5_loader_set_contents (lines : List String) (x : String) :
    fileLoad ⟨true, true, lines, false, none⟩ =
      (some (loadedSet lines), none)
    ∧ (x ∈ (loadedSet lines).coupons ↔
        ∃ l ∈ lines, trimSpace l = x ∧ x ≠ "") := by
  constructor
  · simp [fileLoad, loadedSet, loadLines_none_eq]
  · rw [loadedSet, loadLines_none_eq]
    simp only [Option.getD_some, foldl_insLine_mem]
    simp

/-- C6: every loader error path — open failed, gzip failed, cancelled,
read failed — returns no set (exactly one of set and error is present),
and a load that hits a cancellation poll with the context fired (here:
cancelled before the first line of a non-empty stream) returns the
cancellation error and no usable set. -/
theorem c6_loader_errors_terminal (inp : LoadIn) :
    ((fileLoad inp).1 = none ↔ ((fileLoad inp).2).isSome = true)
    ∧ (inp.openOk = true → inp.gzipOk = true → inp.cancelAt = some 0 →
      inp.lines ≠ [] → fileLoad inp = (none, some .cancelled)) := by
  obtain ⟨o, g, lines, r, ca⟩ := inp
  constructor
  · cases o <;> cases g <;> simp [fileLoad]
    cases h : loadLines ca lines 0 0 ⟨∅⟩ <;> cases r <;> simp
  · intro ho hg hca hl
    subst ho; subst hg; subst hca
    cases lines with
    | nil => exact absurd rfl hl
    | cons l rest => simp [fileLoad, loadLines, ctxFired]

/-- C6 witness: a one-line stream cancelled from the start yields the
cancellation error and no set, and satisfies the exclusivity clause. -/
theorem c6_witness :
    fileLoad ⟨true, true, ["A"], false, some 0⟩ = (none, some .cancelled)
    ∧ ((fileLoad ⟨true, true, ["A"], false, some 0⟩).1 = none ↔
      ((fileLoad ⟨true, true, ["A"], false, some 0⟩).2).isSome = true) :=
  ⟨(c6_loader_errors_terminal ⟨true, true, ["A"], false, some 0⟩).2
      rfl rfl rfl (by simp),
   (c6_loader_errors_terminal ⟨true, true, ["A"], false, some 0⟩).1⟩

/-- C7: in the fallback chain, a primary (S3) failure leads to the
secondary (file) loader being called with the original identifier, so a
double failure surfaces the secondary's error, never the primary's; and
with the primary disabled the result is the secondary's, whatever the
primary would have done. -/
theorem c7_fallback_chain (s3Pre path : String)
    (s3Load fileLoadFn : String → Except LoadErr MapCouponSet)
    (hasS3 : Bool) :
    (∀ (e : LoadErr), s3Load (s3Pre ++ path) = .error e →
      fallbackLoad true hasS3 s3Pre s3Load fileLoadFn path =
        fileLoadFn path)
    ∧ (∀ (e e2 : LoadErr), s3Load (s3Pre ++ path) = .error e →
      fileLoadFn path = .error e2 →
      fallbackLoad true hasS3 s3Pre s3Load fileLoadFn path = .error e2)
    ∧ (∀ (other : String → Except LoadErr MapCouponSet),
      fallbackLoad false hasS3 s3Pre other fileLoadFn path =
        fileLoadFn path) := by
  refine ⟨?_, ?_, ?_⟩
  · intro e he
    cases hasS3 <;> simp [fallbackLoad, he]
  · intro e e2 he he2
    cases hasS3 <;> simp [fallbackLoad, he, he2]
  · intro other
    simp [fallbackLoad]

/-- C7 witness: concrete delegates where S3 fails with an open error and
the file loader fails with a read error: the chain returns the read
error; with S3 disabled it returns the file loader's result directly. -/
theorem c7_witness :
    fallbackLoad true true "s3/" (fun _ => .error .openFailed)
        (fun _ => .error .readFailed) "c.gz" = .error .readFailed
    ∧ fallbackLoad false true "s3/" (fun _ => .ok ⟨∅⟩)
        (fun _ => .error .readFailed) "c.gz" = .error .readFailed :=
  ⟨(c7_fallback_chain "s3/" "c.gz" (fun _ => .error .openFailed)
      (fun _ => .error .readFailed) true).2.1 .openFailed .readFailed
      rfl rfl,
   (c7_fallback_chain "s3/" "c.gz" (fun _ => .error .openFailed)
      (fun _ => .error .readFailed) true).2.2 (fun _ => .ok ⟨∅⟩)⟩

/-- C8: the counting loop of `countMatches` is order-independent: with no
cancellation and a full complement of results, its below-quorum decision
(`matches < 2`, the `InvalidCode` side) agrees with counting all N
results and comparing the total to the threshold 2, despite the
early-success and quorum-impossible exits; hence any two arrival orders
of the same multiset of results yield the same decision. -/
theorem c8_order_independent (sets : List MapCouponSet)
    (arrivals arrivals2 : List Bool)
    (hlen : arrivals.length = sets.length)
    (hperm : arrivals.Perm arrivals2) :
    ((countMatches sets none arrivals < 2) ↔ (countTrue arrivals < 2))
    ∧ ((countMatches sets none arrivals < 2) ↔
      (countMatches sets none arrivals2 < 2)) := by
  have h1 := countLoop_none_iff sets.length arrivals 0 0 (by omega) (by omega)
  have hlen2 : arrivals2.length = sets.length := by
    rw [← hperm.length_eq, hlen]
  have h2 := countLoop_none_iff sets.length arrivals2 0 0 (by omega) (by omega)
  have hct := countTrue_perm hperm
  simp only [countMatches]
  omega

/-- C8 witness: the miss-miss-hit order and the hit-miss-miss order of
one match among three sources both decide below-quorum. -/
theorem c8_witness :
    ((countMatches [⟨∅⟩, ⟨∅⟩, ⟨∅⟩] none [false, false, true] < 2) ↔
      (countTrue [false, false, true] < 2))
    ∧ ((countMatches [⟨∅⟩, ⟨∅⟩, ⟨∅⟩] none [false, false, true] < 2) ↔
      (countMatches [⟨∅⟩, ⟨∅⟩, ⟨∅⟩] none [true, false, false] < 2)) :=
  c8_order_independent [⟨∅⟩, ⟨∅⟩, ⟨∅⟩] [false, false, true]
    [true, false, false] (by decide) (by decide)

/-- C9: a validator holding at most one coupon set can never report
Valid: each set contributes at most one lookup result, the loop counts at
most one match, and `Validate` returns `ErrInvalidPromoCode` for every
code of valid length, whatever the sets contain and whatever the
cancellation schedule. -/
theorem c9_singleton_never_valid (sets : List MapCouponSet)
    (cancelAt : Option Nat) (arrivals : List Bool) (promoCode : String)
    (hsets : sets.length ≤ 1) (harr : arrivals.length ≤ sets.length)
    (h8 : 8 ≤ goLen promoCode) (h10 : goLen promoCode ≤ 10) :
    validate sets cancelAt arrivals promoCode = .errInvalidPromoCode := by
  have h1 := countLoop_le sets.length cancelAt arrivals 0 0
  have h2 := countTrue_le_length arrivals
  have hm : countMatches sets cancelAt arrivals < 2 := by
    simp only [countMatches]
    omega
  have hnlen : ¬(goLen promoCode < 8 ∨ 10 < goLen promoCode) := by omega
  simp [validate, hnlen, hm]

/-- C9 witness: one set that does contain the (valid-length) code still
yields `ErrInvalidPromoCode`. -/
theorem c9_witness :
    validate [⟨{"AAAABBBB"}⟩] none [true] "AAAABBBB" =
      .errInvalidPromoCode :=
  c9_singleton_never_valid [⟨{"AAAABBBB"}⟩] none [true] "AAAABBBB"
    (by decide) (by decide) (by decide) (by decide)

/-- C10: `Close` sets the coupon-set list to `nil` and returns a `nil`
error, is idempotent, and a subsequent `Validate` on a valid-length code
is a total function that runs the counting loop over zero sets and
returns `ErrInvalidPromoCode` (never Valid, never a crash — the
embedding of `Validate` is total on the closed state). -/
theorem c10_validate_after_close (v : List MapCouponSet)
    (cancelAt : Option Nat) (arrivals : List Bool) (promoCode : String) :
    (closeValidator v).2 = none
    ∧ closeValidator ((closeValidator v).1) = closeValidator v
    ∧ (8 ≤ goLen promoCode → goLen promoCode ≤ 10 →
      validate ((closeValidator v).1) cancelAt arrivals promoCode =
        .errInvalidPromoCode) := by
  refine ⟨rfl, rfl, ?_⟩
  intro h8 h10
  have h0 : countLoop 0 cancelAt arrivals 0 0 = 0 := by
    cases arrivals <;> simp [countLoop]
  have hnlen : ¬(goLen promoCode < 8 ∨ 10 < goLen promoCode) := by omega
  simp [validate, countMatches, closeValidator, hnlen, h0]

/-- C10 witness: a closed validator that previously held a set containing
the code reports `ErrInvalidPromoCode` and `Close` returned nil. -/
theorem c10_witness :
    (closeValidator [⟨{"AAAABBBB"}⟩]).2 = none
    ∧ validate ((closeValidator [⟨{"AAAABBBB"}⟩]).1) none []
        "AAAABBBB" = .errInvalidPromoCode :=
  ⟨(c10_validate_after_close [⟨{"AAAABBBB"}⟩] none [] "AAAABBBB").1,
   (c10_validate_after_close [⟨{"AAAABBBB"}⟩] none [] "AAAABBBB").2.2
     (by decide) (by decide)⟩
